import Mathlib

/-!
Verification of the lazy, selection-based array access layer of `pscpy`.

The embedding covers:
* `psc.py` — `RunInfo` (geometry defaulting) and `get_field_to_component`
  (the field catalog);
* `adios2py/__init__.py` — `Variable` (shape reversal, selector validation,
  selections and reads, close semantics) and `File` (variable registry and
  teardown);
* `pscadios2.py` — `PscAdios2Array` (component extraction) and
  `PscAdios2Store.get_variables` (resolution of on-disk variable names
  against the catalog).

Python dicts are embedded as association lists with insertion-order
semantics (`dinsert` overwrites in place or appends); machine arrays are
embedded as shape-plus-valuation records (`NDArr`); failures (assert,
KeyError, AttributeError, RuntimeError) are `Except String`.
-/

namespace Pscpy

/-! ### Python dict embedding: association lists with insertion order -/

/-- First value bound to key `k` (`d[k]` / `d.get(k)`). -/
def dget? {β : Type} (m : List (String × β)) (k : String) : Option β :=
  match m with
  | [] => none
  | (k', v) :: rest => if k' = k then some v else dget? rest k

/-- `d[k] = v`: replace the value at the first occurrence of `k`, keeping its
position, else append the pair — Python dict insertion-order semantics. -/
def dinsert {β : Type} (k : String) (v : β) (m : List (String × β)) :
    List (String × β) :=
  match m with
  | [] => [(k, v)]
  | (k', v') :: rest =>
      if k' = k then (k', v) :: rest else (k', v') :: dinsert k v rest

/-- Apply `f` to the value at the first occurrence of `k` (used for the
nested mutation `d[k][k2] = v` where `k` is known to be present). -/
def dupdate {β : Type} (k : String) (f : β → β) (m : List (String × β)) :
    List (String × β) :=
  match m with
  | [] => []
  | (k', v') :: rest =>
      if k' = k then (k', f v') :: rest else (k', v') :: dupdate k f rest

/-- The key list of a dict, in insertion order. -/
def dkeys {β : Type} (m : List (String × β)) : List String := m.map (·.1)

/-- The value list of a dict. -/
def dvalues {β : Type} (m : List (String × β)) : List β := m.map (·.2)

/-! ### `psc.py`: the field catalog (`get_field_to_component`) -/

/-- The fixed 13-entry moment list of `get_field_to_component`. -/
def moments : List String :=
  ["rho", "jx", "jy", "jz", "px", "py", "pz",
   "txx", "tyy", "tzz", "txy", "tyz", "tzx"]

/-- The fixed 9-component entry bound to the on-disk variable `jeh`. -/
def jehComponents : List (String × Nat) :=
  [("jx_ec", 0), ("jy_ec", 1), ("jz_ec", 2),
   ("ex_ec", 3), ("ey_ec", 4), ("ez_ec", 5),
   ("hx_fc", 6), ("hy_fc", 7), ("hz_fc", 8)]

/-- One step of the body of the nested species/moment loop: insert the entry
for (species index `si`, species name `sname`, moment index `mi`, moment
name `moment`) into both `all_1st` and `all_1st_cc`. -/
def insertMoment (si : Nat) (sname : String) (mi : Nat) (moment : String)
    (ftc : List (String × List (String × Nat))) :
    List (String × List (String × Nat)) :=
  let key := moment ++ "_" ++ sname
  let ftc := dupdate "all_1st" (dinsert key (mi + 13 * si)) ftc
  dupdate "all_1st_cc" (dinsert key (mi + 13 * si)) ftc

/-- Embedding of `get_field_to_component` from `psc.py`: fixed entries
followed by the doubly-indexed species/moment loop. -/
def get_field_to_component (species_names : List String) :
    List (String × List (String × Nat)) :=
  let ftc : List (String × List (String × Nat)) := []
  let ftc := dinsert "jeh" jehComponents ftc
  let ftc := dinsert "dive" [("dive", 0)] ftc
  let ftc := dinsert "rho" [("rho", 0)] ftc
  let ftc := dinsert "d_rho" [("d_rho", 0)] ftc
  let ftc := dinsert "div_j" [("div_j", 0)] ftc
  let ftc := dinsert "all_1st" [] ftc
  let ftc := dinsert "all_1st_cc" [] ftc
  species_names.enum.foldl
    (fun ftc si_sn =>
      moments.enum.foldl
        (fun ftc mi_m => insertMoment si_sn.1 si_sn.2 mi_m.1 mi_m.2 ftc)
        ftc)
    ftc

/-! ### `psc.py`: `RunInfo` (geometry) -/

/-- Abstraction of the `File` inputs `RunInfo.__init__` consumes: the
variable-name list, each variable's (logical, i.e. already reversed) shape,
the attribute-name list, and attribute values as rational vectors
(`get_attribute`'s single-element unwrapping is absorbed by `np.asarray`). -/
structure FileModel where
  variable_names : List String
  var_shape : String → List Nat
  attribute_names : List String
  attributes : String → List ℚ

/-- The derived geometry snapshot held by a `RunInfo`. -/
structure RunInfo where
  gdims : List Nat
  length : List ℚ
  corner : List ℚ
deriving Repr, DecidableEq

/-- Embedding of `RunInfo.__init__`: `none` when the file exposes zero
variables (the `assert len(file.variable_names) > 0`); otherwise the gdims
come from the first three shape entries of the iteration-first variable and
`length`/`corner` follow the override > attribute > default resolution
order of the source. -/
def mkRunInfo (file : FileModel) (length? : Option (List ℚ))
    (corner? : Option (List ℚ)) : Option RunInfo :=
  match file.variable_names with
  | [] => none
  | var :: _ =>
    let gdims := (file.var_shape var).take 3
    let length : List ℚ :=
      match length? with
      | some l => l
      | none =>
        if "length" ∈ file.attribute_names then file.attributes "length"
        else gdims.map (fun n => (n : ℚ))
    let corner : List ℚ :=
      match corner? with
      | some c => c
      | none =>
        if "corner" ∈ file.attribute_names then file.attributes "corner"
        else if "length" ∈ file.attribute_names then
          length.map (fun l => -(1 / 2 : ℚ) * l)
        else [0, 0, 0]
    some { gdims := gdims, length := length, corner := corner }

/-- Embedding of `RunInfo._get_coord`: `np.linspace(c, c + l, n,
endpoint=False)`, i.e. `n` evenly spaced points on the half-open interval. -/
def getCoord (corner length : ℚ) (gdim : Nat) : List ℚ :=
  (List.range gdim).map (fun k => corner + length * k / gdim)

/-! ### `adios2py`: `Variable` -/

/-- One raw on-disk adios2 variable: its shape in on-disk (storage) axis
order, its element values at each raw multi-index, and its element type. -/
structure RawVar where
  rawShape : List Nat
  rawData : List Nat → Int
  dtypeTag : String

/-- Embedding of `adios2py.Variable`'s state: the wrapped raw variable, the
open flag (`_var`/`_engine` are cleared on close), and the `name`-less
cached attributes `shape` and `dtype` set by `__init__`. -/
structure VarState where
  raw : RawVar
  isOpen : Bool
  shape : List Nat
  dtype : String

/-- `Variable.__init__`: caches `shape` (the raw shape reversed, per
`_shape`) and `dtype` as plain attributes. -/
def mkVariable (raw : RawVar) : VarState :=
  { raw := raw, isOpen := true, shape := raw.rawShape.reverse,
    dtype := raw.dtypeTag }

/-- `Variable.close`: sets `_var` and `_engine` to `None`; the cached
`shape`/`dtype` attributes are untouched. -/
def VarState.close (v : VarState) : VarState := { v with isOpen := false }

/-- `Variable._shape`: guarded by `_assert_not_closed`, then the raw shape
reversed. -/
def VarState.shapeMethod (v : VarState) : Except String (List Nat) :=
  if v.isOpen then .ok v.raw.rawShape.reverse
  else .error "adios2py: variable is closed"

/-- `Variable._dtype`: guarded by `_assert_not_closed`. -/
def VarState.dtypeMethod (v : VarState) : Except String String :=
  if v.isOpen then .ok v.raw.dtypeTag
  else .error "adios2py: variable is closed"

/-- `Variable._set_selection`: guarded by `_assert_not_closed`; yields the
(start, count) pair actually passed to the engine — both vectors reversed. -/
def VarState.setSelection (v : VarState) (start count : List Int) :
    Except String (List Int × List Int) :=
  if v.isOpen then .ok (start.reverse, count.reverse)
  else .error "adios2py: variable is closed"

/-- One per-axis selector of `Variable.__getitem__`: a Python `int`, a
Python `slice` (optional start/stop/step), or any other object (which
`int()` fails to convert, reaching the `raise RuntimeError`). -/
inductive Arg where
  | int (i : Int)
  | slc (start stop step : Option Int)
  | other
deriving Repr, DecidableEq

/-- CPython's `slice.indices(n)`: defaults, negative-index resolution and
clamping per `PySlice_Unpack`/`PySlice_AdjustIndices`; `ValueError` when
the step is zero. -/
def sliceIndices (start? stop? step? : Option Int) (n : Nat) :
    Except String (Int × Int × Int) :=
  let step := step?.getD 1
  if step = 0 then .error "ValueError: slice step cannot be zero"
  else
    let lower : Int := if step < 0 then -1 else 0
    let upper : Int := if step < 0 then (n : Int) - 1 else (n : Int)
    let start :=
      match start? with
      | none => if step < 0 then upper else lower
      | some s => if s < 0 then max (s + n) lower else min s upper
    let stop :=
      match stop? with
      | none => if step < 0 then lower else upper
      | some s => if s < 0 then max (s + n) lower else min s upper
    .ok (start, stop, step)

/-- Per-axis selection record produced by the `__getitem__` loop:
(`sel_start[d]`, `sel_count[d]`, whether the axis was a scalar index and is
hence dropped from `arr_shape`). -/
abbrev AxisSel := Int × Int × Bool

/-- The `for d, arg in enumerate(args)` loop of `Variable.__getitem__`
(plus the trailing loop filling unindexed axes with full extents), walking
the logical shape suffix from the current axis. Slice axes run
`arg.indices(shape[d])` then `assert stop > start` and `assert step == 1`;
int axes resolve negative indices against `shape[d]`; anything else
raises; a selector beyond the shape's length is an `IndexError`
(`shape[d]` / `sel_start[d]`). -/
def coreLoop : List Nat → List Arg → Except String (List AxisSel)
  | rem, [] => .ok (rem.map fun n => ((0 : Int), (n : Int), false))
  | [], _ :: _ => .error "IndexError"
  | n :: rem, a :: rest =>
    match a with
    | .int i =>
      let idx := if i < 0 then i + n else i
      (coreLoop rem rest).map fun r => (idx, 1, true) :: r
    | .slc st sp stp =>
      match sliceIndices st sp stp n with
      | .error e => .error e
      | .ok (start, stop, step) =>
        if stop > start then
          if step = 1 then
            (coreLoop rem rest).map fun r => (start, stop - start, false) :: r
          else .error "AssertionError: step == 1"
        else .error "AssertionError: stop > start"
    | .other => .error "RuntimeError: invalid args to __getitem__"

/-- A per-axis selector the source rejects on an axis of extent `n`: not an
int and not a slice whose effective (`slice.indices`-resolved) bounds give
`stop > start` with step 1. -/
def badSelector (a : Arg) (n : Nat) : Bool :=
  match a with
  | .int _ => false
  | .other => true
  | .slc st sp stp =>
    match sliceIndices st sp stp n with
    | .error _ => true
    | .ok (start, stop, step) => stop ≤ start || step ≠ 1

/-- An in-memory numpy array: shape plus the value at each multi-index. -/
structure NDArr where
  shape : List Nat
  dtype : String
  val : List Nat → Int

/-- The block offsets (relative to `sel_start`, one per logical axis) of
the output element at out-index `ix`: scalar axes contribute offset 0,
slice axes consume the next component of `ix`. -/
def fullOffset : List AxisSel → List Nat → List Nat
  | [], _ => []
  | (_, _, true) :: rest, ix => 0 :: fullOffset rest ix
  | (_, _, false) :: rest, [] => 0 :: fullOffset rest []
  | (_, _, false) :: rest, i :: ix => i :: fullOffset rest ix

/-- `Variable.__getitem__`, parameterized by the engine: `eng` receives the
reversed (on-disk order) start vector exactly as `_set_selection` passes
it, and serves the selected block at raw-order offsets. The selector loop
runs first; the engine is consulted only when every selector validated. -/
def VarState.getitemWith (v : VarState) (args : List Arg)
    (eng : List Int → List Nat → Int) : Except String NDArr :=
  if v.isOpen then
    (coreLoop v.shape args).map fun axes =>
      let selStart := axes.map (·.1)
      let block := eng selStart.reverse
      { shape := (axes.filter (fun x => !x.2.2)).map (fun x => x.2.1.toNat),
        dtype := v.dtype,
        val := fun ix => block (fullOffset axes ix).reverse }
  else .error "adios2py: variable is closed"

/-- The real adios2 engine serving variable `raw`: the element at raw-order
offset `bix` of the selection starting at raw-order `rstart`. -/
def rawEngine (raw : RawVar) (rstart : List Int) (bix : List Nat) : Int :=
  raw.rawData (List.zipWith (fun (s : Int) (b : Nat) => (s + (b : Int)).toNat) rstart bix)

/-- `Variable.__getitem__` against the real engine. -/
def VarState.getitem (v : VarState) (args : List Arg) : Except String NDArr :=
  v.getitemWith args (rawEngine v.raw)

/-! ### `adios2py`: `File` -/

/-- Embedding of `adios2py.File`'s state for lifecycle claims: `_engine`
and `_io` (`None` after close), `_io_name`, the process-wide adios registry
of declared io names (`_ad`), the `_open_vars` dict (variable name →
handle id), the full list of handles the file ever issued with their open
flags, and the next fresh handle id. -/
structure FileState where
  engine : Option Unit
  io : Option Unit
  ioName : Option String
  registry : List String
  openVars : List (String × Nat)
  handles : List (Nat × Bool)
  nextId : Nat
deriving Repr, DecidableEq

/-- `File.__init__`: declares the io `"io-" + filename` in the global
registry and opens the engine with an empty open-variable dict. -/
def mkFile (filename : String) (registry : List String) : FileState :=
  { engine := some (), io := some (), ioName := some ("io-" ++ filename),
    registry := ("io-" ++ filename) :: registry,
    openVars := [], handles := [], nextId := 0 }

/-- `File.get_variable`: constructs a fresh `Variable` and tracks it in
`_open_vars` under its name — overwriting any previous entry of that name,
dict-style. Returns the new state and the issued handle's id. -/
def FileState.getVariable (f : FileState) (name : String) : FileState × Nat :=
  ({ f with handles := f.handles ++ [(f.nextId, true)],
            openVars := dinsert name f.nextId f.openVars,
            nextId := f.nextId + 1 }, f.nextId)

/-- `File.close`: closes every variable currently tracked in `_open_vars`,
then calls `self._engine.close()` — an `AttributeError` when `_engine` is
already `None` (there is no already-closed guard inside `close` itself;
only `__del__` checks) — then removes the io from the global registry and
clears `_io`/`_io_name`. -/
def FileState.close (f : FileState) : Except String FileState :=
  let handles' := f.handles.map
    (fun h => if h.1 ∈ dvalues f.openVars then (h.1, false) else h)
  match f.engine with
  | none => .error "AttributeError: NoneType object has no attribute close"
  | some _ =>
    .ok { f with handles := handles'
                 , engine := none
                 , io := none
                 , registry := (match f.ioName with
                                | some n => f.registry.erase n
                                | none => f.registry)
                 , ioName := none }

/-- A sequence of `get_variable` calls, in order (states only). -/
def FileState.issueAll (f : FileState) (names : List String) : FileState :=
  names.foldl (fun f n => (f.getVariable n).1) f

/-! ### `pscadios2.py`: `PscAdios2Store.get_variables` -/

/-- The resolution loop of `PscAdios2Store.get_variables`: for each on-disk
variable name, `field_to_component[orig_varname]` (a `KeyError` when
absent), then each (field, component) pair is written into the accumulator
dict as `variables[field] = (orig_varname, component)`. -/
def resolveVars (ftc : List (String × List (String × Nat)))
    (acc : List (String × (String × Nat))) :
    List String → Except String (List (String × (String × Nat)))
  | [] => .ok acc
  | orig :: rest =>
    match dget? ftc orig with
    | none => .error ("KeyError: " ++ orig)
    | some comps =>
      resolveVars ftc
        (comps.foldl (fun a fc => dinsert fc.1 (orig, fc.2) a) acc) rest

/-- `PscAdios2Store.get_variables` (up to the per-field
`open_store_variable` wrapping): the resolved logical-field dict. -/
def get_variables (variable_names : List String) (species_names : List String) :
    Except String (List (String × (String × Nat))) :=
  resolveVars (get_field_to_component species_names) [] variable_names

/-! ### `pscadios2.py`: `PscAdios2Array` -/

/-- `PscAdios2Array.__init__`'s `self.shape = array.shape[:-1]`: the public
shape is the re-acquired raw variable's (logical) shape minus its trailing
component axis. -/
def pscArrayShape (raw : RawVar) : List Nat := (mkVariable raw).shape.dropLast

/-- `PscAdios2Array.__init__`'s `self.dtype = array.dtype`. -/
def pscArrayDtype (raw : RawVar) : String := (mkVariable raw).dtype

/-- `PscAdios2Array._getitem`: re-acquires the raw variable and indexes it
with the caller's selectors plus the fixed component offset appended as a
trailing scalar index. -/
def pscGetitem (raw : RawVar) (component : Nat) (args : List Arg) :
    Except String NDArr :=
  (mkVariable raw).getitem (args ++ [Arg.int component])

/-! ### Dict lemmas -/

theorem dkeys_dupdate {β : Type} (k : String) (f : β → β)
    (m : List (String × β)) : dkeys (dupdate k f m) = dkeys m := by
  induction m with
  | nil => rfl
  | cons p rest ih =>
    obtain ⟨k', v'⟩ := p
    by_cases h : k' = k
    · simp [dupdate, dkeys, h]
    · simp only [dupdate, if_neg h, dkeys, List.map_cons]
      simpa [dkeys] using ih

theorem dget?_dupdate_ne {β : Type} (k q : String) (f : β → β)
    (m : List (String × β)) (hqk : k ≠ q) :
    dget? (dupdate k f m) q = dget? m q := by
  induction m with
  | nil => rfl
  | cons p rest ih =>
    obtain ⟨k', v'⟩ := p
    by_cases h : k' = k
    · subst h
      simp [dupdate, dget?, Ne.symm hqk, hqk]
    · by_cases h2 : k' = q <;> simp [dupdate, dget?, h, h2, Ne.symm hqk, ih]

theorem dkeys_foldl_inv {α β : Type} (f : List (String × β) → α → List (String × β))
    (hf : ∀ d a, dkeys (f d a) = dkeys d) :
    ∀ (l : List α) (d : List (String × β)), dkeys (l.foldl f d) = dkeys d := by
  intro l
  induction l with
  | nil => intro d; rfl
  | cons a rest ih => intro d; rw [List.foldl_cons, ih, hf]

theorem dget?_foldl_inv {α β : Type} (q : String)
    (f : List (String × β) → α → List (String × β))
    (hf : ∀ d a, dget? (f d a) q = dget? d q) :
    ∀ (l : List α) (d : List (String × β)), dget? (l.foldl f d) q = dget? d q := by
  intro l
  induction l with
  | nil => intro d; rfl
  | cons a rest ih => intro d; rw [List.foldl_cons, ih, hf]

theorem dkeys_dinsert_of_not_mem {β : Type} (k : String) (v : β)
    (m : List (String × β)) (h : k ∉ dkeys m) :
    dkeys (dinsert k v m) = dkeys m ++ [k] := by
  induction m with
  | nil => rfl
  | cons p rest ih =>
    obtain ⟨k', v'⟩ := p
    simp only [dkeys, List.map_cons, List.mem_cons] at h
    push_neg at h
    simp only [dinsert, if_neg (Ne.symm h.1), dkeys, List.map_cons]
    simpa [dkeys] using ih h.2

theorem dvalues_dinsert_of_not_mem {β : Type} (k : String) (v : β)
    (m : List (String × β)) (h : k ∉ dkeys m) :
    dvalues (dinsert k v m) = dvalues m ++ [v] := by
  induction m with
  | nil => rfl
  | cons p rest ih =>
    obtain ⟨k', v'⟩ := p
    simp only [dkeys, List.map_cons, List.mem_cons] at h
    push_neg at h
    simp only [dinsert, if_neg (Ne.symm h.1), dvalues, List.map_cons]
    simpa [dvalues] using ih h.2

/-! ### Catalog structure lemmas -/

/-- `insertMoment` never changes the outer key list. -/
theorem dkeys_insertMoment (si : Nat) (sn : String) (mi : Nat) (mo : String)
    (ftc : List (String × List (String × Nat))) :
    dkeys (insertMoment si sn mi mo ftc) = dkeys ftc := by
  simp [insertMoment, dkeys_dupdate]

/-- `insertMoment` never changes the value at a key other than `all_1st`
and `all_1st_cc`. -/
theorem dget?_insertMoment_ne (si : Nat) (sn : String) (mi : Nat) (mo : String)
    (q : String) (h1 : q ≠ "all_1st") (h2 : q ≠ "all_1st_cc")
    (ftc : List (String × List (String × Nat))) :
    dget? (insertMoment si sn mi mo ftc) q = dget? ftc q := by
  simp [insertMoment,
    dget?_dupdate_ne _ _ _ _ (fun h => h2 h.symm),
    dget?_dupdate_ne _ _ _ _ (fun h => h1 h.symm)]

/-- The outer key list of the catalog is the fixed 7-name list for every
species list. -/
theorem dkeys_get_field_to_component (species : List String) :
    dkeys (get_field_to_component species) =
      ["jeh", "dive", "rho", "d_rho", "div_j", "all_1st", "all_1st_cc"] := by
  show dkeys (species.enum.foldl _ _) = _
  rw [dkeys_foldl_inv]
  · rfl
  · intro d a
    rw [dkeys_foldl_inv]
    intro d' a'
    exact dkeys_insertMoment _ _ _ _ _

/-- The catalog's value at a fixed (non-species) key is independent of the
species list. -/
theorem dget?_get_field_to_component_fixed (species : List String)
    (q : String) (h1 : q ≠ "all_1st") (h2 : q ≠ "all_1st_cc") :
    dget? (get_field_to_component species) q =
      dget? (get_field_to_component []) q := by
  show dget? (species.enum.foldl _ _) q = _
  rw [dget?_foldl_inv]
  · rfl
  · intro d a
    rw [dget?_foldl_inv]
    intro d' a'
    exact dget?_insertMoment_ne _ _ _ _ _ h1 h2 _

/-! ### File lifecycle lemmas -/

/-- `get_variable` leaves the engine handle untouched. -/
theorem getVariable_engine (f : FileState) (n : String) :
    ((f.getVariable n).1).engine = f.engine := rfl

/-- Issuing handles under pairwise-distinct names preserves the registry
invariant "every issued handle id is a value of `_open_vars`" (and leaves
the engine untouched). With a repeated name, `dinsert` would overwrite and
drop the earlier id — this is exactly what the distinctness rules out. -/
theorem issueAll_inv (names : List String) :
    ∀ f : FileState,
    (∀ p ∈ f.handles, p.1 ∈ dvalues f.openVars) →
    (∀ k ∈ dkeys f.openVars, k ∉ names) →
    names.Nodup →
    (∀ p ∈ (f.issueAll names).handles,
        p.1 ∈ dvalues (f.issueAll names).openVars) ∧
    (f.issueAll names).engine = f.engine := by
  induction names with
  | nil => intro f hsub _ _; exact ⟨hsub, rfl⟩
  | cons n rest ih =>
    intro f hsub hk hnd
    have hn_fresh : n ∉ dkeys f.openVars := fun hmem =>
      hk n hmem (List.mem_cons_self n rest)
    have hvals : dvalues (dinsert n f.nextId f.openVars) =
        dvalues f.openVars ++ [f.nextId] :=
      dvalues_dinsert_of_not_mem _ _ _ hn_fresh
    have hkeys : dkeys (dinsert n f.nextId f.openVars) =
        dkeys f.openVars ++ [n] :=
      dkeys_dinsert_of_not_mem _ _ _ hn_fresh
    have step : (f.issueAll (n :: rest)) =
        ((f.getVariable n).1).issueAll rest := rfl
    rw [step]
    refine ih ((f.getVariable n).1) ?_ ?_ hnd.of_cons
    · intro p hp
      show p.1 ∈ dvalues (dinsert n f.nextId f.openVars)
      rw [hvals]
      have hp' : p ∈ f.handles ++ [(f.nextId, true)] := hp
      rcases List.mem_append.mp hp' with h | h
      · exact List.mem_append.mpr (Or.inl (hsub p h))
      · rcases List.mem_singleton.mp h with rfl
        exact List.mem_append.mpr (Or.inr (List.mem_singleton.mpr rfl))
    · intro k hkmem
      have hkmem' : k ∈ dkeys f.openVars ++ [n] := by
        rw [← hkeys]; exact hkmem
      rcases List.mem_append.mp hkmem' with h | h
      · exact fun hr => hk k h (List.mem_cons_of_mem n hr)
      · rcases List.mem_singleton.mp h with rfl
        exact (List.nodup_cons.mp hnd).1

/-! ### Selector validation lemmas -/

/-- The `__getitem__` selector loop succeeds only if every supplied
selector, paired with its axis extent, is a valid one (an int, or a
step-1 forward slice with positive effective length). -/
theorem coreLoop_ok_good : ∀ (args : List Arg) (rem : List Nat) (axes : List AxisSel),
    coreLoop rem args = .ok axes →
    ∀ p ∈ args.zip rem, badSelector p.1 p.2 = false := by
  intro args
  induction args with
  | nil => intro rem axes _ p hp; simp at hp
  | cons a rest ih =>
    intro rem axes h p hp
    cases rem with
    | nil => simp at hp
    | cons n rem' =>
      rcases List.mem_cons.mp hp with rfl | hp'
      · cases a with
        | int i => rfl
        | other => simp [coreLoop] at h
        | slc st sp stp =>
          cases hsl : sliceIndices st sp stp n with
          | error e => simp [coreLoop, hsl] at h
          | ok t =>
            obtain ⟨start, stop, step⟩ := t
            by_cases h1 : stop > start
            · by_cases h2 : step = 1
              · simp [badSelector, hsl, h2]
                omega
              · simp [coreLoop, hsl, h1, h2] at h
            · simp [coreLoop, hsl, h1] at h
      · cases a with
        | int i =>
          cases hrec : coreLoop rem' rest with
          | error e => simp [coreLoop, hrec, Except.map] at h
          | ok axes' => exact ih rem' axes' hrec p hp'
        | other => simp [coreLoop] at h
        | slc st sp stp =>
          cases hsl : sliceIndices st sp stp n with
          | error e => simp [coreLoop, hsl] at h
          | ok t =>
            obtain ⟨start, stop, step⟩ := t
            by_cases h1 : stop > start
            · by_cases h2 : step = 1
              · cases hrec : coreLoop rem' rest with
                | error e => simp [coreLoop, hsl, h1, h2, hrec, Except.map] at h
                | ok axes' => exact ih rem' axes' hrec p hp'
              · simp [coreLoop, hsl, h1, h2] at h
            · simp [coreLoop, hsl, h1] at h

/-- A full default slice (`:`) on an axis of positive extent selects the
whole axis: offset 0, the full count, non-scalar. -/
theorem coreLoop_full_cons (n : Nat) (hn : 0 < n) (rem : List Nat)
    (args : List Arg) :
    coreLoop (n :: rem) (Arg.slc none none none :: args) =
      (coreLoop rem args).map (fun r => ((0 : Int), (n : Int), false) :: r) := by
  have hpos : (0 : Int) < (n : Int) := by exact_mod_cast hn
  simp [coreLoop, sliceIndices, hpos]

/-- A nonnegative scalar index selects offset `c` with count 1, marked as
a dropped (scalar) axis. -/
theorem coreLoop_intNat_cons (c n : Nat) (rem : List Nat) (args : List Arg) :
    coreLoop (n :: rem) (Arg.int (c : Int) :: args) =
      (coreLoop rem args).map
        (fun r => (((c : Nat) : Int), 1, true) :: r) := by
  have hnn : ¬((c : Int) < 0) := by simp
  simp [coreLoop, hnn]

/-- Evaluation of `File.close` when the engine handle is still present. -/
theorem close_of_engine_some (f : FileState) (u : Unit)
    (heng : f.engine = some u) :
    f.close = .ok
      { f with handles := f.handles.map
                 (fun h => if h.1 ∈ dvalues f.openVars then (h.1, false) else h)
               , engine := none
               , io := none
               , registry := (match f.ioName with
                              | some n => f.registry.erase n
                              | none => f.registry)
               , ioName := none } := by
  unfold FileState.close
  rw [heng]

/-- Catalog lookup as the store uses it: outer key (on-disk variable name)
then inner key (logical field name). -/
def ftcLookup (species : List String) (outer inner : String) : Option Nat :=
  (dget? (get_field_to_component species) outer).bind (fun d => dget? d inner)

/-- Ok-ness of `resolveVars` is independent of the accumulator: it succeeds
exactly when every remaining on-disk name is a catalog key. -/
theorem resolveVars_isOk_iff (ftc : List (String × List (String × Nat))) :
    ∀ (names : List String) (acc : List (String × (String × Nat))),
    (resolveVars ftc acc names).isOk = true ↔
      ∀ v ∈ names, (dget? ftc v).isSome = true := by
  intro names
  induction names with
  | nil => intro acc; simp [resolveVars, Except.isOk, Except.toBool]
  | cons orig rest ih =>
    intro acc
    cases heq : dget? ftc orig with
    | none =>
      simp only [resolveVars, heq, List.mem_cons]
      constructor
      · intro h; cases h
      · intro h
        have := h orig (Or.inl rfl)
        rw [heq] at this
        cases this
    | some comps =>
      simp only [resolveVars, heq, List.mem_cons]
      rw [ih]
      constructor
      · intro h
        intro v hv
        cases hv with
        | inl hv => subst hv; rw [heq]; rfl
        | inr hv => exact h v hv
      · intro h v hv
        exact h v (Or.inr hv)

end Pscpy

/-- C1: the claim states that an on-disk variable name absent from the
catalog is simply omitted from the resolved set without error. The source
(`PscAdios2Store.get_variables`) instead evaluates
`field_to_component[orig_varname]`, a plain dict subscript: for a file
whose variable list contains the name `"foo"` (not a catalog key), the
resolution raises a `KeyError` rather than omitting the name. -/
theorem C1_counterexample :
    Pscpy.get_variables ["foo"] [] = .error "KeyError: foo" ∧
    (Pscpy.get_variables ["foo"] []).isOk = false := ⟨rfl, rfl⟩

/-- C1 (amended): resolving the on-disk variable list against the field
catalog raises a lookup error (`KeyError`) for an on-disk variable name not
present in the catalog; the resolved set is produced exactly when every
on-disk variable name is a catalog key. -/
theorem C1_amended : ∀ (species names : List String),
    (Pscpy.get_variables names species).isOk = true ↔
      ∀ v ∈ names,
        (Pscpy.dget? (Pscpy.get_field_to_component species) v).isSome = true :=
  fun species names =>
    Pscpy.resolveVars_isOk_iff (Pscpy.get_field_to_component species) names []

/-- C2: the claim states that with species `["e", "i"]` the logical field
`"txy_e"` resolves to component offset 9. In the source's fixed moment
list, `"txy"` is at moment index 10 (after rho, jx, jy, jz, px, py, pz,
txx, tyy, tzz), so `"txy_e"` resolves to offset 10, not 9. -/
theorem C2_counterexample :
    Pscpy.ftcLookup ["e", "i"] "all_1st" "txy_e" = some 10 ∧
    Pscpy.ftcLookup ["e", "i"] "all_1st" "txy_e" ≠ some 9 := by decide

/-- C2 (amended): for species `["e", "i"]` and the fixed 13-entry moment
list, the catalog assigns component offset `m + 13 * s` to the logical
field `"{moment}_{species}"` (moment index `m`, species index `s`) in both
species-parameterized entries; in particular `"rho_i"` resolves to offset
13 and `"txy_e"` resolves to offset 10. -/
theorem C2_amended :
    (∀ (m : Fin 13) (s : Fin 2),
      Pscpy.ftcLookup ["e", "i"] "all_1st"
          ((Pscpy.moments.getD m "") ++ "_" ++ (["e", "i"].getD s "")) =
        some ((m : Nat) + 13 * (s : Nat)) ∧
      Pscpy.ftcLookup ["e", "i"] "all_1st_cc"
          ((Pscpy.moments.getD m "") ++ "_" ++ (["e", "i"].getD s "")) =
        some ((m : Nat) + 13 * (s : Nat))) ∧
    Pscpy.ftcLookup ["e", "i"] "all_1st" "rho_i" = some 13 ∧
    Pscpy.ftcLookup ["e", "i"] "all_1st" "txy_e" = some 10 := by decide

/-- C3: the claim states that `File.close` is idempotent via an internal
already-closed guard. The source's `close` has no such guard (only
`__del__` checks `if self._engine`): a second direct `close()` call reaches
`self._engine.close()` with `_engine = None` and faults with an
`AttributeError`. Shown on a freshly opened file: the first close
succeeds, the second faults. -/
theorem C3_counterexample :
    (Pscpy.mkFile "pfd.bp" []).close.isOk = true ∧
    ((Pscpy.mkFile "pfd.bp" []).close.bind Pscpy.FileState.close).isOk
      = false := ⟨rfl, rfl⟩

/-- C3 (amended): the first `close()` on an open session closes every
VariableHandle tracked in `_open_vars`, closes the engine handle, and
releases the catalog entry (removes the io name from the process-wide
registry and clears `_io`/`_io_name`); but `close()` is not idempotent —
a second direct call faults with an `AttributeError` on the cleared engine
handle (the already-closed guard exists only in `__del__`). -/
theorem C3_amended (f : Pscpy.FileState) (h : f.engine.isSome = true) :
    ∃ f', f.close = .ok f' ∧
      (∀ p ∈ f'.handles, p.1 ∈ Pscpy.dvalues f.openVars → p.2 = false) ∧
      f'.engine = none ∧ f'.io = none ∧ f'.ioName = none ∧
      (∀ n, f.ioName = some n → f'.registry = f.registry.erase n) ∧
      f'.close.isOk = false := by
  cases heng : f.engine with
  | none => rw [heng] at h; cases h
  | some u =>
    refine ⟨_, Pscpy.close_of_engine_some f u heng, ?_, rfl, rfl, rfl, ?_, rfl⟩
    · intro p hp hmem
      rcases List.mem_map.mp hp with ⟨q, _, rfl⟩
      by_cases hq : q.1 ∈ Pscpy.dvalues f.openVars
      · simp [hq]
      · rw [if_neg hq] at hmem ⊢
        exact absurd hmem hq
    · intro n hn
      show (match f.ioName with
            | some n => f.registry.erase n
            | none => f.registry) = f.registry.erase n
      rw [hn]

/-- C3 witness: the amended close contract on a session with one issued
variable handle. -/
theorem C3_witness :
    ∃ f', (((Pscpy.mkFile "pfd.bp" []).getVariable "jeh").1).close = .ok f' ∧
      (∀ p ∈ f'.handles,
        p.1 ∈ Pscpy.dvalues (((Pscpy.mkFile "pfd.bp" []).getVariable "jeh").1).openVars →
          p.2 = false) ∧
      f'.engine = none ∧ f'.io = none ∧ f'.ioName = none ∧
      (∀ n, (((Pscpy.mkFile "pfd.bp" []).getVariable "jeh").1).ioName = some n →
        f'.registry =
          (((Pscpy.mkFile "pfd.bp" []).getVariable "jeh").1).registry.erase n) ∧
      f'.close.isOk = false :=
  C3_amended (((Pscpy.mkFile "pfd.bp" []).getVariable "jeh").1) rfl

/-- C9: the claim states that every VariableHandle a session ever issued —
including under repeated `get_variable` calls with the same name — is
closed by the time `close()` completes. The source keys `_open_vars` by
variable name, so a repeated name overwrites the dict entry: after
`get_variable("jeh")` twice and `close()`, the first handle (id 0) is
still open and only the second (id 1) was closed. -/
theorem C9_counterexample :
    (((Pscpy.mkFile "pfd.bp" []).issueAll ["jeh", "jeh"]).close.map
        Pscpy.FileState.handles) = .ok [(0, true), (1, false)] ∧
    (((Pscpy.mkFile "pfd.bp" []).issueAll ["jeh", "jeh"]).close.map
        (fun f' => f'.handles.all (fun p => !p.2))) = .ok false :=
  ⟨rfl, rfl⟩

/-- C9 (amended): for every sequence of `get_variable` calls with
pairwise-distinct variable names, every VariableHandle the session issued
is closed by the time `close()` completes; a repeated name drops the
earlier handle of that name from `_open_vars`, leaving it unclosed. -/
theorem C9_amended (filename : String) (reg : List String)
    (names : List String) (hnd : names.Nodup) :
    ∃ f', ((Pscpy.mkFile filename reg).issueAll names).close = .ok f' ∧
      ∀ p ∈ f'.handles, p.2 = false := by
  have hinv := Pscpy.issueAll_inv names (Pscpy.mkFile filename reg)
    (by intro p hp; cases hp) (by intro k hk; cases hk) hnd
  have heng : ((Pscpy.mkFile filename reg).issueAll names).engine = some () :=
    hinv.2
  refine ⟨_, Pscpy.close_of_engine_some _ () heng, ?_⟩
  intro p hp
  rcases List.mem_map.mp hp with ⟨q, hq, rfl⟩
  rw [if_pos (hinv.1 q hq)]

/-- C9 witness: the amended teardown contract on one concrete session with
two distinct issued variable names. -/
theorem C9_witness :
    ∃ f', ((Pscpy.mkFile "pfd.bp" []).issueAll ["jeh", "all_1st"]).close
        = .ok f' ∧ ∀ p ∈ f'.handles, p.2 = false :=
  C9_amended "pfd.bp" [] ["jeh", "all_1st"] (by decide)

/-- C7: for a session whose container has neither a `"length"` nor a
`"corner"` attribute and no explicit overrides, the constructed geometry
has `corner = [0,0,0]` and `length = gdims` (the reference variable's
first three shape entries); for a session with only a `"length"` attribute
and no overrides, `corner = -0.5 * length`. -/
theorem C7_geometry_defaults (file : Pscpy.FileModel) (v : String)
    (rest : List String) (hv : file.variable_names = v :: rest)
    (hc : "corner" ∉ file.attribute_names) :
    ("length" ∉ file.attribute_names →
      Pscpy.mkRunInfo file none none =
        some { gdims := (file.var_shape v).take 3
               , length := ((file.var_shape v).take 3).map (fun n => (n : ℚ))
               , corner := [0, 0, 0] }) ∧
    ("length" ∈ file.attribute_names →
      Pscpy.mkRunInfo file none none =
        some { gdims := (file.var_shape v).take 3
               , length := file.attributes "length"
               , corner := (file.attributes "length").map
                   (fun l => -(1 / 2 : ℚ) * l) }) := by
  constructor
  · intro hl
    simp [Pscpy.mkRunInfo, hv, hl, hc]
  · intro hl
    simp [Pscpy.mkRunInfo, hv, hl, hc]

/-- Concrete session for the C7 witness: no attributes at all. -/
def c7FileA : Pscpy.FileModel :=
  { variable_names := ["jeh"], var_shape := fun _ => [16, 32, 64, 9],
    attribute_names := [], attributes := fun _ => [] }

/-- Concrete session for the C7 witness: only a `"length"` attribute. -/
def c7FileB : Pscpy.FileModel :=
  { variable_names := ["jeh"], var_shape := fun _ => [16, 32, 64, 9],
    attribute_names := ["length"],
    attributes := fun n => if n = "length" then [100, 200, 400] else [] }

/-- C7 witness: the geometry defaults evaluated on two concrete sessions. -/
theorem C7_witness :
    Pscpy.mkRunInfo c7FileA none none =
      some { gdims := [16, 32, 64], length := [16, 32, 64]
             , corner := [0, 0, 0] } ∧
    Pscpy.mkRunInfo c7FileB none none =
      some { gdims := [16, 32, 64], length := [100, 200, 400]
             , corner := [-50, -100, -200] } := by
  constructor
  · have h := (C7_geometry_defaults c7FileA "jeh" [] rfl (by decide)).1 (by decide)
    rw [h]; norm_num [c7FileA]
  · have h := (C7_geometry_defaults c7FileB "jeh" [] rfl (by decide)).2 (by decide)
    rw [h]; norm_num [c7FileB]

/-- Concrete raw variable used by witnesses and counterexamples: on-disk
shape (4,3,2), hence logical shape (2,3,4). -/
def sampleRaw : Pscpy.RawVar :=
  { rawShape := [4, 3, 2],
    rawData := fun ix =>
      match ix with
      | [i, j, k] => (100 * i + 10 * j + k : Int)
      | _ => 0,
    dtypeTag := "float64" }

/-- C4: for every index tuple containing a selector that is neither a
scalar index nor a contiguous step-1 forward slice, or containing a slice
whose effective bounds give `stop ≤ start` (zero-length included), the
call fails with an invalid-selector error whose value is independent of
the engine — the selector loop runs and raises before any engine call —
and in particular never returns a (zero-sized or any other) array. -/
theorem C4_invalid_selector (v : Pscpy.VarState) (hopen : v.isOpen = true)
    (args : List Pscpy.Arg)
    (hbad : ∃ p ∈ args.zip v.shape, Pscpy.badSelector p.1 p.2 = true) :
    ∃ e, ∀ eng, v.getitemWith args eng = .error e := by
  obtain ⟨p, hp, hbadp⟩ := hbad
  cases h : Pscpy.coreLoop v.shape args with
  | ok axes =>
    rw [Pscpy.coreLoop_ok_good args v.shape axes h p hp] at hbadp
    cases hbadp
  | error e =>
    exact ⟨e, fun eng => by
      simp [Pscpy.VarState.getitemWith, hopen, h, Except.map]⟩

/-- C4 witness: a zero-length slice (`1:1`) on the first axis of a
concrete open variable fails with the same error for every engine. -/
theorem C4_witness :
    ∃ e, ∀ eng, (Pscpy.mkVariable sampleRaw).getitemWith
        [Pscpy.Arg.slc (some 1) (some 1) none] eng = .error e :=
  C4_invalid_selector (Pscpy.mkVariable sampleRaw) rfl
    [Pscpy.Arg.slc (some 1) (some 1) none] (by decide)

/-- C5: for a raw variable of on-disk shape `(a,b,c)`, the handle's
reported shape is the reverse `(c,b,a)`; `_set_selection` passes the
start/count vectors to the engine reversed; and a full-extent read
(`__getitem__` with no selectors) returns an array whose shape equals the
reported logical shape exactly. -/
theorem C5_axis_reversal (a b c : Nat) (raw : Pscpy.RawVar)
    (hshape : raw.rawShape = [a, b, c]) :
    (Pscpy.mkVariable raw).shape = [c, b, a] ∧
    (∀ start count, (Pscpy.mkVariable raw).setSelection start count =
        .ok (start.reverse, count.reverse)) ∧
    ((Pscpy.mkVariable raw).getitem []).map Pscpy.NDArr.shape
      = .ok [c, b, a] := by
  have hv : (Pscpy.mkVariable raw).shape = [c, b, a] := by
    show raw.rawShape.reverse = [c, b, a]
    rw [hshape]
    rfl
  refine ⟨hv, fun start count => rfl, ?_⟩
  show ((Pscpy.mkVariable raw).getitemWith [] _).map _ = _
  unfold Pscpy.VarState.getitemWith
  rw [hv]
  rfl

/-- C5 witness: the axis-reversal round trip on a concrete variable of
on-disk shape (4,3,2). -/
theorem C5_witness :
    (Pscpy.mkVariable sampleRaw).shape = [2, 3, 4] ∧
    (∀ start count, (Pscpy.mkVariable sampleRaw).setSelection start count =
        .ok (start.reverse, count.reverse)) ∧
    ((Pscpy.mkVariable sampleRaw).getitem []).map Pscpy.NDArr.shape
      = .ok [2, 3, 4] :=
  C5_axis_reversal 4 3 2 sampleRaw rfl

/-- Concrete raw variable for the C6 witness: on-disk shape (3,2,2,4),
hence logical shape (4,2,2,3) — x=4, y=2, z=2, k=3 components. -/
def sampleRaw4 : Pscpy.RawVar :=
  { rawShape := [3, 2, 2, 4],
    rawData := fun ix =>
      match ix with
      | [cc, zz, yy, xx] => (1000 * cc + 100 * zz + 10 * yy + xx : Int)
      | _ => 0,
    dtypeTag := "float32" }

/-- C6: for a raw variable of logical shape `(x,y,z,k)` and a
`PscAdios2Array` at component offset `c < k`, the public shape is the raw
shape minus its trailing axis, the element type matches the raw
variable's, and a `_getitem` with full selectors returns an array of shape
`(x,y,z)` whose every element equals the raw full read's element at index
`c` on the trailing axis. -/
theorem C6_component_extraction (x y z k c : Nat) (raw : Pscpy.RawVar)
    (hshape : raw.rawShape = [k, z, y, x]) (_hc : c < k)
    (hx : 0 < x) (hy : 0 < y) (hz : 0 < z) :
    Pscpy.pscArrayShape raw = [x, y, z] ∧
    Pscpy.pscArrayDtype raw = raw.dtypeTag ∧
    ∃ arr rawArr,
      Pscpy.pscGetitem raw c
          [Pscpy.Arg.slc none none none, Pscpy.Arg.slc none none none,
           Pscpy.Arg.slc none none none] = .ok arr ∧
      (Pscpy.mkVariable raw).getitem [] = .ok rawArr ∧
      arr.shape = [x, y, z] ∧ rawArr.shape = [x, y, z, k] ∧
      arr.dtype = raw.dtypeTag ∧
      ∀ i j l : Nat, arr.val [i, j, l] = rawArr.val [i, j, l, c] := by
  have hv : (Pscpy.mkVariable raw).shape = [x, y, z, k] := by
    show raw.rawShape.reverse = _
    rw [hshape]
    rfl
  have hps : Pscpy.pscArrayShape raw = [x, y, z] := by
    unfold Pscpy.pscArrayShape
    rw [hv]
    rfl
  have hcl : Pscpy.coreLoop [x, y, z, k]
      [Pscpy.Arg.slc none none none, Pscpy.Arg.slc none none none,
       Pscpy.Arg.slc none none none, Pscpy.Arg.int (c : Int)] =
      .ok [((0 : Int), (x : Int), false), ((0 : Int), (y : Int), false),
           ((0 : Int), (z : Int), false), (((c : Nat) : Int), 1, true)] := by
    rw [Pscpy.coreLoop_full_cons x hx, Pscpy.coreLoop_full_cons y hy,
        Pscpy.coreLoop_full_cons z hz, Pscpy.coreLoop_intNat_cons c k]
    rfl
  have harr : Pscpy.pscGetitem raw c
      [Pscpy.Arg.slc none none none, Pscpy.Arg.slc none none none,
       Pscpy.Arg.slc none none none] = .ok
      { shape := [x, y, z], dtype := raw.dtypeTag,
        val := fun ix => Pscpy.rawEngine raw [((c : Nat) : Int), 0, 0, 0]
          (Pscpy.fullOffset
            [((0 : Int), (x : Int), false), ((0 : Int), (y : Int), false),
             ((0 : Int), (z : Int), false), (((c : Nat) : Int), 1, true)]
            ix).reverse } := by
    show (Pscpy.mkVariable raw).getitemWith _ _ = _
    unfold Pscpy.VarState.getitemWith
    rw [hv]
    rw [show ([Pscpy.Arg.slc none none none, Pscpy.Arg.slc none none none,
       Pscpy.Arg.slc none none none] ++ [Pscpy.Arg.int (c : Int)]) =
       [Pscpy.Arg.slc none none none, Pscpy.Arg.slc none none none,
       Pscpy.Arg.slc none none none, Pscpy.Arg.int (c : Int)] from rfl]
    rw [hcl]
    rfl
  have hraw : (Pscpy.mkVariable raw).getitem [] = .ok
      { shape := [x, y, z, k], dtype := raw.dtypeTag,
        val := fun ix => Pscpy.rawEngine raw [0, 0, 0, 0]
          (Pscpy.fullOffset
            [((0 : Int), (x : Int), false), ((0 : Int), (y : Int), false),
             ((0 : Int), (z : Int), false), ((0 : Int), (k : Int), false)]
            ix).reverse } := by
    show (Pscpy.mkVariable raw).getitemWith _ _ = _
    unfold Pscpy.VarState.getitemWith
    rw [hv]
    rfl
  refine ⟨hps, rfl, _, _, harr, hraw, rfl, rfl, rfl, ?_⟩
  intro i j l
  simp [Pscpy.rawEngine, Pscpy.fullOffset]

/-- C6 witness: component extraction at offset 1 of a concrete raw
variable of logical shape (4,2,2,3). -/
theorem C6_witness :
    Pscpy.pscArrayShape sampleRaw4 = [4, 2, 2] ∧
    Pscpy.pscArrayDtype sampleRaw4 = sampleRaw4.dtypeTag ∧
    ∃ arr rawArr,
      Pscpy.pscGetitem sampleRaw4 1
          [Pscpy.Arg.slc none none none, Pscpy.Arg.slc none none none,
           Pscpy.Arg.slc none none none] = .ok arr ∧
      (Pscpy.mkVariable sampleRaw4).getitem [] = .ok rawArr ∧
      arr.shape = [4, 2, 2] ∧ rawArr.shape = [4, 2, 2, 3] ∧
      arr.dtype = sampleRaw4.dtypeTag ∧
      ∀ i j l : Nat, arr.val [i, j, l] = rawArr.val [i, j, l, 1] :=
  C6_component_extraction 4 2 2 3 1 sampleRaw4 rfl (by decide) (by decide)
    (by decide) (by decide)

/-- C8: the claim states that after `close()` every use of a
VariableHandle fails, and in particular `shape` and `dtype` must never be
queryable. In the source, `shape` and `dtype` are plain attributes cached
by `__init__` which `close()` does not clear: reading them on a closed
handle still succeeds and returns the construction-time values, so they
remain queryable after close. -/
theorem C8_counterexample :
    ((Pscpy.mkVariable sampleRaw).close).shape = [2, 3, 4] ∧
    ((Pscpy.mkVariable sampleRaw).close).dtype = "float64" := ⟨rfl, rfl⟩

/-- C8 (amended): after `close()`, every method that consults the cleared
engine references (`_shape`, `_dtype`, `_set_selection`, `__getitem__`)
fails with the "variable is closed" error; but the `shape` and `dtype`
attributes cached at construction remain readable and return their
construction-time values. -/
theorem C8_amended (v : Pscpy.VarState) :
    (v.close).shapeMethod = .error "adios2py: variable is closed" ∧
    (v.close).dtypeMethod = .error "adios2py: variable is closed" ∧
    (∀ start count, (v.close).setSelection start count =
      .error "adios2py: variable is closed") ∧
    (∀ args eng, (v.close).getitemWith args eng =
      .error "adios2py: variable is closed") ∧
    (v.close).shape = v.shape ∧ (v.close).dtype = v.dtype :=
  ⟨rfl, rfl, fun _ _ => rfl, fun _ _ => rfl, rfl, rfl⟩

/-- C10: for every species list, the catalog returned by
`get_field_to_component` has exactly the outer key set
jeh/dive/rho/d_rho/div_j/all_1st/all_1st_cc (independent of species);
`"jeh"` always maps its nine component names to offsets 0 through 8; and
for an empty species list `"all_1st"` and `"all_1st_cc"` map to empty
mappings. -/
theorem C10_catalog_keys : ∀ species : List String,
    Pscpy.dkeys (Pscpy.get_field_to_component species) =
      ["jeh", "dive", "rho", "d_rho", "div_j", "all_1st", "all_1st_cc"] ∧
    Pscpy.dget? (Pscpy.get_field_to_component species) "jeh" =
      some [("jx_ec", 0), ("jy_ec", 1), ("jz_ec", 2), ("ex_ec", 3),
            ("ey_ec", 4), ("ez_ec", 5), ("hx_fc", 6), ("hy_fc", 7),
            ("hz_fc", 8)] ∧
    Pscpy.dget? (Pscpy.get_field_to_component []) "all_1st" = some [] ∧
    Pscpy.dget? (Pscpy.get_field_to_component []) "all_1st_cc" = some [] := by
  intro species
  refine ⟨Pscpy.dkeys_get_field_to_component species, ?_, by decide, by decide⟩
  rw [Pscpy.dget?_get_field_to_component_fixed species "jeh" (by decide) (by decide)]
  decide
